import Mathlib

/-!
Verification of the lossy packet-transmission simulator (packet.py,
simulation.py) against its natural-language specification.

Shallow embedding conventions:
* Python strings are lists of Unicode code points (List Nat); byte strings
  are lists of byte values (List Nat).
* Python floats are modelled as exact rationals.  All rate constants of the
  controller (0.05, 0.1, 0.3, 0.5, 0.8, 1.2) and the window fractions k/10
  behave identically under exact rational and IEEE double comparison at the
  decision points of the code, so the rational model is faithful there.
* Fallible operations return Option; the decode path of the codec returns
  Json.null as the failure sentinel, exactly as the Python code returns None
  (note Python cannot distinguish a decoded JSON null from the sentinel).
* Randomness is passed in explicitly: the uniform draw, the corrupted byte
  position and the xor value are arguments of corrupt_data, and the simpy
  clock value at resumption is an argument of transmit.
-/

/-- JSON values, as produced by the json module: null, booleans, numbers
(modelled as exact rationals), strings (lists of code points), arrays and
objects (association lists in document order). -/
inductive Json where
  | null : Json
  | bool (b : Bool) : Json
  | num (q : ℚ) : Json
  | str (s : List ℕ) : Json
  | arr (elems : List Json) : Json
  | obj (fields : List (List ℕ × Json)) : Json

/-- The test the orchestrator applies to a decode result: decoded_data is
None, with Json.null modelling the Python None sentinel. -/
def Json.isNull : Json → Bool
  | .null => true
  | _ => false

/-- Lowercase hex digit character for a value below 16 (48 = digit zero,
97 = letter a), as used by the json encoder. -/
def hexDigitChar (n : ℕ) : ℕ :=
  if n < 10 then 48 + n else 87 + n

/-- The six-character escape sequence backslash-u-XXXX (92 = backslash,
117 = letter u) for a code unit below 0x10000. -/
def uEscape (c : ℕ) : List ℕ :=
  [92, 117, hexDigitChar (c / 4096 % 16), hexDigitChar (c / 256 % 16),
   hexDigitChar (c / 16 % 16), hexDigitChar (c % 16)]

/-- How json.dumps with ensure_ascii (the default) renders one character of
a string: 34 (double quote) and 92 (backslash) get two-character escapes,
the control characters 8, 9, 10, 12, 13 get their short escapes, all other
characters outside the printable ASCII range 32..126 get unicode escapes,
with astral code points rendered as a surrogate pair. -/
def escapeChar (c : ℕ) : List ℕ :=
  if c = 34 then [92, 34]
  else if c = 92 then [92, 92]
  else if c = 8 then [92, 98]
  else if c = 9 then [92, 116]
  else if c = 10 then [92, 110]
  else if c = 12 then [92, 102]
  else if c = 13 then [92, 114]
  else if c < 32 then uEscape c
  else if c < 127 then [c]
  else if c < 65536 then uEscape c
  else uEscape (55296 + (c - 65536) / 1024) ++ uEscape (56320 + (c - 65536) % 1024)

/-- json.dumps rendering of a string value: quote, escaped characters, quote. -/
def encodeStringLit (s : List ℕ) : List ℕ :=
  [34] ++ (s.map escapeChar).flatten ++ [34]

/-- The code points of the string "data", the single field name of the
packet envelope. -/
def dataKey : List ℕ := [100, 97, 116, 97]

/-- json.dumps({"data": payload}) for a string payload, with the default
separators: open brace, key literal, colon, space, value literal, close
brace. -/
def dumpsEnvelope (payload : List ℕ) : List ℕ :=
  [123] ++ encodeStringLit dataKey ++ [58, 32] ++ encodeStringLit payload ++ [125]

/-- UTF-8 encoding of one code point (str.encode). -/
def utf8EncodeChar (c : ℕ) : List ℕ :=
  if c < 128 then [c]
  else if c < 2048 then [192 + c / 64, 128 + c % 64]
  else if c < 65536 then [224 + c / 4096, 128 + c / 64 % 64, 128 + c % 64]
  else [240 + c / 262144, 128 + c / 4096 % 64, 128 + c / 64 % 64, 128 + c % 64]

/-- UTF-8 encoding of a string (str.encode). -/
def utf8Encode (s : List ℕ) : List ℕ :=
  (s.map utf8EncodeChar).flatten

/-- One code point from the head of a byte string, strict UTF-8: rejects
truncated sequences, stray continuation bytes, overlong forms, surrogates
and values above 0x10FFFF, as CPython does.  Returns the code point and
the remaining bytes. -/
def utf8DecodeStep (b : ℕ) (rest : List ℕ) : Option (ℕ × List ℕ) :=
  if b < 128 then some (b, rest)
  else if b < 194 then none
  else if b < 224 then
    match rest with
    | c :: rest2 =>
      if 128 ≤ c ∧ c < 192 then some ((b - 192) * 64 + (c - 128), rest2)
      else none
    | [] => none
  else if b < 240 then
    match rest with
    | c :: d :: rest2 =>
      if (128 ≤ c ∧ c < 192) ∧ (128 ≤ d ∧ d < 192) then
        let v := (b - 224) * 4096 + (c - 128) * 64 + (d - 128)
        if v < 2048 ∨ (55296 ≤ v ∧ v < 57344) then none
        else some (v, rest2)
      else none
    | _ => none
  else if b < 245 then
    match rest with
    | c :: d :: e :: rest2 =>
      if (128 ≤ c ∧ c < 192) ∧ (128 ≤ d ∧ d < 192) ∧ (128 ≤ e ∧ e < 192) then
        let v := (b - 240) * 262144 + (c - 128) * 4096 + (d - 128) * 64 + (e - 128)
        if v < 65536 ∨ 1114112 ≤ v then none
        else some (v, rest2)
      else none
    | _ => none
  else none

/-- The decoding loop; the fuel argument is a modelling artifact, with
every step consuming at least one byte and exactly one unit of fuel. -/
def utf8DecodeLoop : ℕ → List ℕ → Option (List ℕ)
  | 0, _ => none
  | _ + 1, [] => some []
  | f + 1, b :: rest =>
    match utf8DecodeStep b rest with
    | some (v, rest2) => (utf8DecodeLoop f rest2).map (v :: ·)
    | none => none

/-- Strict UTF-8 decoding of a byte string (bytes.decode); failure is an
exception in Python, None here. -/
def utf8Decode (bs : List ℕ) : Option (List ℕ) :=
  utf8DecodeLoop (bs.length + 1) bs

/-- JSON whitespace (space, tab, newline, carriage return). -/
def isJsonWs (c : ℕ) : Bool :=
  c = 32 || c = 9 || c = 10 || c = 13

/-- Skip leading JSON whitespace. -/
def skipWs : List ℕ → List ℕ
  | [] => []
  | c :: rest => if isJsonWs c then skipWs rest else c :: rest

/-- Value of one hex digit character (json accepts both cases). -/
def hexVal (c : ℕ) : Option ℕ :=
  if 48 ≤ c ∧ c ≤ 57 then some (c - 48)
  else if 97 ≤ c ∧ c ≤ 102 then some (c - 87)
  else if 65 ≤ c ∧ c ≤ 70 then some (c - 55)
  else none

/-- Value of a four-hex-digit escape body. -/
def hexVal4 (h1 h2 h3 h4 : ℕ) : Option ℕ :=
  match hexVal h1, hexVal h2, hexVal h3, hexVal h4 with
  | some a, some b, some c, some d => some (a * 4096 + b * 256 + c * 16 + d)
  | _, _, _, _ => none

/-- One escape sequence, entered just after a backslash inside a string
literal: the short escapes, and unicode escapes with the surrogate-pair
lookahead of the CPython scanner (a high surrogate followed by a valid
low-surrogate escape is combined; any other or lone surrogate is kept and
the lookahead input is left for the ordinary scanning loop).  Returns the
produced characters and the remaining input. -/
def scanEscape : List ℕ → Option (List ℕ × List ℕ)
  | [] => none
  | e :: rest2 =>
    if e = 117 then
      match rest2 with
      | h1 :: h2 :: h3 :: h4 :: rest3 =>
        match hexVal4 h1 h2 h3 h4 with
        | none => none
        | some u =>
          if 55296 ≤ u ∧ u < 56320 then
            match rest3 with
            | b1 :: b2 :: g1 :: g2 :: g3 :: g4 :: rest4 =>
              if b1 = 92 ∧ b2 = 117 then
                match hexVal4 g1 g2 g3 g4 with
                | some u2 =>
                  if 56320 ≤ u2 ∧ u2 < 57344 then
                    some ([65536 + (u - 55296) * 1024 + (u2 - 56320)], rest4)
                  else some ([u], b1 :: b2 :: g1 :: g2 :: g3 :: g4 :: rest4)
                | none => some ([u], b1 :: b2 :: g1 :: g2 :: g3 :: g4 :: rest4)
              else some ([u], b1 :: b2 :: g1 :: g2 :: g3 :: g4 :: rest4)
            | rest3x => some ([u], rest3x)
          else some ([u], rest3)
      | _ => none
    else if e = 34 then some ([34], rest2)
    else if e = 92 then some ([92], rest2)
    else if e = 47 then some ([47], rest2)
    else if e = 98 then some ([8], rest2)
    else if e = 102 then some ([12], rest2)
    else if e = 110 then some ([10], rest2)
    else if e = 114 then some ([13], rest2)
    else if e = 116 then some ([9], rest2)
    else none

/-- The json scanner for the body of a string literal, entered just after
the opening quote; returns the decoded characters and the input remaining
after the closing quote.  Raw control characters are rejected (strict
mode); escape sequences are handled by scanEscape.  The fuel argument is
a modelling artifact: every step consumes at least one input character
and exactly one unit of fuel, so any fuel above the input length is
enough; callers pass the input length plus one. -/
def scanString : ℕ → List ℕ → Option (List ℕ × List ℕ)
  | 0, _ => none
  | _ + 1, [] => none
  | f + 1, c :: rest =>
    if c = 34 then some ([], rest)
    else if c = 92 then
      match scanEscape rest with
      | some (chars, rest2) => (scanString f rest2).map (fun p => (chars ++ p.1, p.2))
      | none => none
    else if c < 32 then none
    else (scanString f rest).map (fun p => (c :: p.1, p.2))

/-- Longest leading run of decimal digit characters, and the rest. -/
def scanDigits : List ℕ → List ℕ × List ℕ
  | [] => ([], [])
  | c :: rest =>
    if 48 ≤ c ∧ c ≤ 57 then
      let p := scanDigits rest
      (c :: p.1, p.2)
    else ([], c :: rest)

/-- Numeric value of a list of digit characters. -/
def digitsToNat (ds : List ℕ) : ℕ :=
  ds.foldl (fun acc d => acc * 10 + (d - 48)) 0

/-- Scanner for the json number grammar
sign? int frac? exp? with int = 0 | [1-9][0-9]* (no leading zeros), as the
NUMBER_RE of the json module; the exact rational value is returned. -/
def scanNumber (l : List ℕ) : Option (ℚ × List ℕ) :=
  let signAndRest : Bool × List ℕ :=
    match l with
    | 45 :: r => (true, r)
    | _ => (false, l)
  let neg := signAndRest.1
  match signAndRest.2 with
  | [] => none
  | c :: rest =>
    if c = 48 ∨ (49 ≤ c ∧ c ≤ 57) then
      let intAndRest : ℕ × List ℕ :=
        if c = 48 then (0, rest)
        else
          let p := scanDigits rest
          (digitsToNat (c :: p.1), p.2)
      let fracAndRest : Option (ℚ × List ℕ) :=
        match intAndRest.2 with
        | 46 :: r2 =>
          let p := scanDigits r2
          if p.1 = [] then none
          else some ((intAndRest.1 : ℚ) + (digitsToNat p.1 : ℚ) / ((10 : ℚ) ^ p.1.length), p.2)
        | r2 => some ((intAndRest.1 : ℚ), r2)
      match fracAndRest with
      | none => none
      | some (mant, r3) =>
        match r3 with
        | 101 :: r4 =>
          scanExp mant neg r4
        | 69 :: r4 =>
          scanExp mant neg r4
        | r4 => some ((if neg then -mant else mant), r4)
    else none
where
  /-- Exponent part after the letter e: sign? digits+. -/
  scanExp (mant : ℚ) (neg : Bool) (r : List ℕ) : Option (ℚ × List ℕ) :=
    let expSignAndRest : Bool × List ℕ :=
      match r with
      | 45 :: r5 => (true, r5)
      | 43 :: r5 => (false, r5)
      | _ => (false, r)
    let p := scanDigits expSignAndRest.2
    if p.1 = [] then none
    else
      let e := digitsToNat p.1
      let scaled := if expSignAndRest.1 then mant / ((10 : ℚ) ^ e) else mant * ((10 : ℚ) ^ e)
      some ((if neg then -scaled else scaled), p.2)

mutual
/-- The json value scanner: strings, objects, arrays, the three literals
and numbers.  The fuel argument only bounds nesting and member recursion
and is always called with more fuel than the input length. -/
def parseValue : ℕ → List ℕ → Option (Json × List ℕ)
  | 0, _ => none
  | _ + 1, [] => none
  | n + 1, c :: rest =>
    if c = 34 then (scanString (rest.length + 1) rest).map (fun p => (Json.str p.1, p.2))
    else if c = 123 then
      match skipWs rest with
      | 125 :: r => some (Json.obj [], r)
      | l => (parseMembers n l).map (fun p => (Json.obj p.1, p.2))
    else if c = 91 then
      match skipWs rest with
      | 93 :: r => some (Json.arr [], r)
      | l => (parseItems n l).map (fun p => (Json.arr p.1, p.2))
    else if c = 116 then
      match rest with
      | 114 :: 117 :: 101 :: r => some (Json.bool true, r)
      | _ => none
    else if c = 102 then
      match rest with
      | 97 :: 108 :: 115 :: 101 :: r => some (Json.bool false, r)
      | _ => none
    else if c = 110 then
      match rest with
      | 117 :: 108 :: 108 :: r => some (Json.null, r)
      | _ => none
    else (scanNumber (c :: rest)).map (fun p => (Json.num p.1, p.2))

/-- Members of an object after the opening brace (input already past
leading whitespace, at the first key): key string, colon, value, then a
comma and further members or the closing brace. -/
def parseMembers : ℕ → List ℕ → Option (List (List ℕ × Json) × List ℕ)
  | 0, _ => none
  | n + 1, l =>
    match l with
    | 34 :: rest =>
      match scanString (rest.length + 1) rest with
      | some (key, rest1) =>
        match skipWs rest1 with
        | 58 :: rest2 =>
          match parseValue n (skipWs rest2) with
          | some (v, rest3) =>
            match skipWs rest3 with
            | 44 :: rest4 => (parseMembers n (skipWs rest4)).map (fun p => ((key, v) :: p.1, p.2))
            | 125 :: rest4 => some ([(key, v)], rest4)
            | _ => none
          | none => none
        | _ => none
      | none => none
    | _ => none

/-- Items of an array after the opening bracket (input already past
leading whitespace, at the first item). -/
def parseItems : ℕ → List ℕ → Option (List Json × List ℕ)
  | 0, _ => none
  | n + 1, l =>
    match parseValue n l with
    | some (v, rest) =>
      match skipWs rest with
      | 44 :: rest2 => (parseItems n (skipWs rest2)).map (fun p => (v :: p.1, p.2))
      | 93 :: rest2 => some ([v], rest2)
      | _ => none
    | none => none
end

/-- json.loads on a string: parse one value surrounded by optional
whitespace; trailing data is an error (None). -/
def Json.loads (cs : List ℕ) : Option Json :=
  match parseValue (cs.length + 1) (skipWs cs) with
  | some (v, rest) => if skipWs rest = [] then some v else none
  | none => none

/-- Lookup in a parsed object with dict semantics: a duplicated key keeps
its last occurrence. -/
def lookupField (fields : List (List ℕ × Json)) (key : List ℕ) : Option Json :=
  (fields.filter (fun f => f.1 = key)).getLast?.map (fun f => f.2)

namespace Packet

/-- Packet.encode: json.dumps({"data": self.data}).encode() for a string
payload given as its list of code points; the result is the list of bytes. -/
def encode (data : List ℕ) : List ℕ :=
  utf8Encode (dumpsEnvelope data)

/-- Packet.decode: UTF-8 decode the bytes, json.loads the text and take the
"data" field; every failure (invalid UTF-8, malformed json, a non-object
value, a missing field) is caught and becomes the sentinel None, modelled
as Json.null, which Python cannot tell apart from a decoded null. -/
def decode (encoded_data : List ℕ) : Json :=
  match (utf8Decode encoded_data).bind Json.loads with
  | some (Json.obj fields) =>
    match lookupField fields dataKey with
    | some v => v
    | none => Json.null
  | _ => Json.null

end Packet

-- Sanity checks of the codec on concrete inputs.
example : Packet.encode [97] = [123, 34, 100, 97, 116, 97, 34, 58, 32, 34, 97, 34, 125] := by
  decide
example : Packet.decode (Packet.encode [97]) = Json.str [97] := by rfl
example : Packet.decode [] = Json.null := by rfl
example : Packet.decode [120, 121, 122] = Json.null := by rfl

/-!
## The simulator state (simulation.py, class NetworkSimulator)

The simpy environment and the logging configuration are external
collaborators with no bearing on the core state and are not part of the
state record.  The clock value at the single resumption point of a
transmission attempt is passed to transmit explicitly.
-/

/-- The mutable attributes NetworkSimulator.__init__ creates, with the
Python names. -/
structure NetworkSimulator where
  error_rate : ℚ
  latency_data : List ℚ
  packet_loss : List Bool
  successful_transmissions : ℕ
  total_transmissions : ℕ
  adaptive_window : ℕ
  min_error_rate : ℚ
  max_error_rate : ℚ

namespace NetworkSimulator

/-- NetworkSimulator.__init__(env, error_rate): empty histories, zero
counters, window 10, bounds 0.05 and 0.5.  The supplied error_rate is
stored without validation or clamping. -/
def init (error_rate : ℚ) : NetworkSimulator :=
  { error_rate := error_rate
    latency_data := []
    packet_loss := []
    successful_transmissions := 0
    total_transmissions := 0
    adaptive_window := 10
    min_error_rate := 0.05
    max_error_rate := 0.5 }

/-- NetworkSimulator.adjust_error_rate.  Python slicing
packet_loss[-adaptive_window:] is the last adaptive_window entries once
the guard len(packet_loss) >= adaptive_window holds, and sum over booleans
counts the True entries. -/
def adjust_error_rate (s : NetworkSimulator) : NetworkSimulator :=
  if s.adaptive_window ≤ s.packet_loss.length then
    let recent_loss_rate : ℚ :=
      (((s.packet_loss.drop (s.packet_loss.length - s.adaptive_window)).count true : ℕ) : ℚ) /
        (s.adaptive_window : ℚ)
    if recent_loss_rate > 0.3 then
      { s with error_rate := max s.min_error_rate (s.error_rate * 0.8) }
    else if recent_loss_rate < 0.1 then
      { s with error_rate := min s.max_error_rate (s.error_rate * 1.2) }
    else s
  else s

/-- NetworkSimulator.corrupt_data, with the two random draws passed in
explicitly: draw is the uniform sample of random.random() in [0, 1), pos
is random.randint(0, len(data) - 1) and xorv is random.randint(1, 255).
Empty data is returned unchanged; if the draw fires, a copy of the data
with the byte at pos replaced by its xor with xorv is returned, otherwise
the data is returned unchanged.  The Python bytes object passed in is
never mutated, which the pure embedding reflects. -/
def corrupt_data (s : NetworkSimulator) (data : List ℕ) (draw : ℚ) (pos xorv : ℕ) :
    List ℕ :=
  if data = [] then data
  else if draw < s.error_rate then data.set pos ((data.getD pos 0) ^^^ xorv)
  else data

/-- The recording block of NetworkSimulator.transmit (lines appending to
latency_data and packet_loss and bumping the counters). -/
def recordOutcome (s : NetworkSimulator) (latency : ℚ) (lost : Bool) : NetworkSimulator :=
  { s with
    latency_data := s.latency_data ++ [latency]
    packet_loss := s.packet_loss ++ [lost]
    total_transmissions := s.total_transmissions + 1
    successful_transmissions :=
      if lost then s.successful_transmissions else s.successful_transmissions + 1 }

/-- The except branch of NetworkSimulator.transmit: any exception inside
the try block is logged, one loss entry is appended and the attempt
counter incremented; no latency entry is appended. -/
def exceptRecord (s : NetworkSimulator) : NetworkSimulator :=
  { s with
    packet_loss := s.packet_loss ++ [true]
    total_transmissions := s.total_transmissions + 1 }

/-- NetworkSimulator.transmit after its only suspension point (the simpy
timeout), for one attempt.
* packet is the string payload of the Packet;
* encodeOk models whether packet.encode() raises (json.dumps raises for a
  payload it cannot serialize; for the string payloads of packet.py it
  always succeeds);
* now is the value of env.now when the attempt resumes; both readings of
  env.now in the body happen with no intervening yield, so they see the
  same clock value;
* draw, pos and xorv are the random draws of corrupt_data;
* saveOk models whether save_statistics() raises (its file writes are
  collaborator-side and can fail); save_statistics reads but never writes
  the core state, so its only modelled effect is where its exception
  lands: inside the try block of transmit. -/
def transmit (s : NetworkSimulator) (packet : List ℕ) (encodeOk : Bool) (now draw : ℚ)
    (pos xorv : ℕ) (saveOk : Bool) : NetworkSimulator :=
  if encodeOk then
    let start_time := now
    let encoded_data := Packet.encode packet
    if encoded_data = [] then exceptRecord s
    else
      let corrupted_data := s.corrupt_data encoded_data draw pos xorv
      let decoded_data := Packet.decode corrupted_data
      let latency := now - start_time
      let s1 := recordOutcome s latency decoded_data.isNull
      let s2 := adjust_error_rate s1
      if saveOk then s2 else exceptRecord s2
  else exceptRecord s

/-- NetworkSimulator.get_statistics: the explicit no-data dictionary when
the latency history is empty is modelled as none; otherwise the snapshot
of the five derived fields. -/
structure Statistics where
  total_transmissions : ℕ
  successful_transmissions : ℕ
  average_latency : ℚ
  loss_rate : ℚ
  current_error_rate : ℚ
deriving DecidableEq

/-- NetworkSimulator.get_statistics. -/
def get_statistics (s : NetworkSimulator) : Option Statistics :=
  if s.latency_data = [] then none
  else
    some
      { total_transmissions := s.total_transmissions
        successful_transmissions := s.successful_transmissions
        average_latency := s.latency_data.sum / (s.latency_data.length : ℚ)
        loss_rate := ((s.packet_loss.count true : ℕ) : ℚ) / (s.packet_loss.length : ℚ)
        current_error_rate := s.error_rate }

end NetworkSimulator

/-!
## Driving the simulator

The claims quantify over sequences of operations: recorded outcomes with
the controller invoked after each (the spec algorithm is evaluated after
every recorded outcome), bare controller invocations, and whole
transmission attempts.
-/

/-- One recorded outcome followed by the controller, as one iteration of
the record-then-adjust portion of transmit does; the latency of a fed
outcome is the constant 0 the code produces (see C10). -/
def feedOutcome (s : NetworkSimulator) (lost : Bool) : NetworkSimulator :=
  (s.recordOutcome 0 lost).adjust_error_rate

/-- Feed a list of outcomes one at a time, adjusting after each. -/
def runOutcomes (s : NetworkSimulator) (l : List Bool) : NetworkSimulator :=
  l.foldl feedOutcome s

/-- An operation on the recorder/controller state: record one outcome, or
invoke the controller. -/
inductive SimOp where
  | record (latency : ℚ) (lost : Bool) : SimOp
  | adjust : SimOp

/-- Apply one operation. -/
def applyOp (s : NetworkSimulator) : SimOp → NetworkSimulator
  | .record latency lost => s.recordOutcome latency lost
  | .adjust => s.adjust_error_rate

/-- Apply a sequence of operations. -/
def runOps (s : NetworkSimulator) (ops : List SimOp) : NetworkSimulator :=
  ops.foldl applyOp s

/-- The per-attempt inputs of one call to transmit. -/
structure TransmitInput where
  packet : List ℕ
  encodeOk : Bool
  now : ℚ
  draw : ℚ
  pos : ℕ
  xorv : ℕ
  saveOk : Bool

/-- Run a sequence of transmission attempts (the cooperative scheduler
serializes them, so a sequence of completed attempts is the general
execution shape). -/
def runTransmits (s : NetworkSimulator) (l : List TransmitInput) : NetworkSimulator :=
  l.foldl (fun s i => s.transmit i.packet i.encodeOk i.now i.draw i.pos i.xorv i.saveOk) s

-- Sanity checks of the simulator on concrete inputs.
example :
    ((NetworkSimulator.init 0.5).transmit [97] true 3 1 0 1 true).latency_data = [0] ∧
    ((NetworkSimulator.init 0.5).transmit [97] true 3 1 0 1 true).packet_loss = [false] ∧
    ((NetworkSimulator.init 0.5).transmit [97] true 3 1 0 1 true).total_transmissions = 1 ∧
    ((NetworkSimulator.init 0.5).transmit [97] true 3 1 0 1 true).error_rate = 0.5 := by
  refine ⟨?_, ?_, ?_, ?_⟩ <;> with_unfolding_all decide
example :
    ((NetworkSimulator.init 1).transmit [97] true 3 0 10 3 true).packet_loss = [false] := by
  rfl
example :
    ((NetworkSimulator.init 1).transmit [97] true 3 0 9 3 true).packet_loss = [true] := by
  rfl

/-- The controller algorithm exactly as the specification words it (C1):
with fewer than 10 entries the rate is unchanged; otherwise, with
recent_loss_rate the fraction of losses in the last 10 entries, a rate
above 0.3 decays the rate to max(0.05, rate * 0.8), a rate below 0.1
raises it to min(0.5, rate * 1.2), and otherwise (both boundaries
included) the rate is unchanged.  Stated only to be compared against
adjust_error_rate. -/
def adjustSpecModel (loss_history : List Bool) (current_rate : ℚ) : ℚ :=
  if loss_history.length < 10 then current_rate
  else
    let recent_loss_rate : ℚ :=
      (((loss_history.drop (loss_history.length - 10)).count true : ℕ) : ℚ) / 10
    if recent_loss_rate > 0.3 then max 0.05 (current_rate * 0.8)
    else if recent_loss_rate < 0.1 then min 0.5 (current_rate * 1.2)
    else current_rate

/-- A code point a Python string can hold that survives the codec as a
single character: a Unicode scalar value (below 0x110000 and not a
surrogate code unit). -/
def GoodChar (c : ℕ) : Prop :=
  c < 1114112 ∧ ¬ (55296 ≤ c ∧ c < 57344)

instance (c : ℕ) : Decidable (GoodChar c) := by
  unfold GoodChar; infer_instance

/-!
## Helper lemmas about the controller and recorder
-/

namespace NetworkSimulator

lemma adjust_error_rate_latency (s : NetworkSimulator) :
    s.adjust_error_rate.latency_data = s.latency_data := by
  simp only [adjust_error_rate]; split_ifs <;> rfl

lemma adjust_error_rate_loss (s : NetworkSimulator) :
    s.adjust_error_rate.packet_loss = s.packet_loss := by
  simp only [adjust_error_rate]; split_ifs <;> rfl

lemma adjust_error_rate_total (s : NetworkSimulator) :
    s.adjust_error_rate.total_transmissions = s.total_transmissions := by
  simp only [adjust_error_rate]; split_ifs <;> rfl

lemma adjust_error_rate_succ (s : NetworkSimulator) :
    s.adjust_error_rate.successful_transmissions = s.successful_transmissions := by
  simp only [adjust_error_rate]; split_ifs <;> rfl

lemma adjust_error_rate_window (s : NetworkSimulator) :
    s.adjust_error_rate.adaptive_window = s.adaptive_window := by
  simp only [adjust_error_rate]; split_ifs <;> rfl

lemma adjust_error_rate_min (s : NetworkSimulator) :
    s.adjust_error_rate.min_error_rate = s.min_error_rate := by
  simp only [adjust_error_rate]; split_ifs <;> rfl

lemma adjust_error_rate_max (s : NetworkSimulator) :
    s.adjust_error_rate.max_error_rate = s.max_error_rate := by
  simp only [adjust_error_rate]; split_ifs <;> rfl

/-- The rate the controller leaves behind, as a closed formula. -/
lemma adjust_error_rate_rate (s : NetworkSimulator) :
    s.adjust_error_rate.error_rate =
      if s.adaptive_window ≤ s.packet_loss.length then
        if (((s.packet_loss.drop (s.packet_loss.length - s.adaptive_window)).count true : ℕ) : ℚ) /
              (s.adaptive_window : ℚ) > 0.3 then
          max s.min_error_rate (s.error_rate * 0.8)
        else if (((s.packet_loss.drop (s.packet_loss.length - s.adaptive_window)).count true : ℕ) : ℚ) /
              (s.adaptive_window : ℚ) < 0.1 then
          min s.max_error_rate (s.error_rate * 1.2)
        else s.error_rate
      else s.error_rate := by
  simp only [adjust_error_rate]; split_ifs <;> rfl

/-- With fewer entries than the window the controller does nothing at all. -/
lemma adjust_error_rate_short (s : NetworkSimulator)
    (h : s.packet_loss.length < s.adaptive_window) : s.adjust_error_rate = s := by
  simp only [adjust_error_rate]
  rw [if_neg (by omega)]

end NetworkSimulator

/-!
## C1: the controller implements the spec algorithm exactly
-/

/-- C1: for every loss history and every current rate (and arbitrary
recorder fields), adjust_error_rate on a simulator with the constructed
constants (window 10, bounds 0.05 and 0.5) leaves behind exactly the rate
of the spec algorithm: no change below 10 entries; otherwise decay to
max(0.05, rate * 0.8) when the fraction of losses in the last 10 entries
exceeds 0.3, raise to min(0.5, rate * 1.2) when it is below 0.1, and no
change otherwise, the two boundaries included. -/
theorem C1_adjust_error_rate_matches_spec (hist : List Bool) (rate : ℚ) (lat : List ℚ)
    (st tt : ℕ) :
    (NetworkSimulator.adjust_error_rate
        { error_rate := rate, latency_data := lat, packet_loss := hist,
          successful_transmissions := st, total_transmissions := tt,
          adaptive_window := 10, min_error_rate := 0.05, max_error_rate := 0.5 }).error_rate
      = adjustSpecModel hist rate := by
  rw [NetworkSimulator.adjust_error_rate_rate]
  unfold adjustSpecModel
  rcases Nat.lt_or_ge hist.length 10 with h | h
  · rw [if_neg (show ¬ (10 : ℕ) ≤ hist.length by omega), if_pos (show hist.length < 10 from h)]
  · rw [if_pos (show (10 : ℕ) ≤ hist.length from h),
      if_neg (show ¬ hist.length < 10 by omega)]
    norm_num

/-!
## C2: the rate-bounds invariant
-/

/-- The controller preserves the rate bounds whenever they already hold
and the lower bound is nonnegative. -/
lemma NetworkSimulator.adjust_error_rate_bounds (s : NetworkSimulator)
    (h0 : 0 ≤ s.min_error_rate) (h1 : s.min_error_rate ≤ s.error_rate)
    (h2 : s.error_rate ≤ s.max_error_rate) :
    s.min_error_rate ≤ s.adjust_error_rate.error_rate ∧
      s.adjust_error_rate.error_rate ≤ s.max_error_rate := by
  have hr : (0 : ℚ) ≤ s.error_rate := h0.trans h1
  rw [NetworkSimulator.adjust_error_rate_rate]
  split_ifs with hlen hhigh hlow
  · refine ⟨le_max_left _ _, max_le (h1.trans h2) ?_⟩
    nlinarith
  · refine ⟨le_min (h1.trans h2) ?_, min_le_left _ _⟩
    nlinarith
  · exact ⟨h1, h2⟩
  · exact ⟨h1, h2⟩

/-- The recorder and the controller never touch the configured bounds. -/
lemma applyOp_config (s : NetworkSimulator) (op : SimOp) :
    (applyOp s op).min_error_rate = s.min_error_rate ∧
      (applyOp s op).max_error_rate = s.max_error_rate := by
  cases op with
  | record lat lost => exact ⟨rfl, rfl⟩
  | adjust =>
    exact ⟨NetworkSimulator.adjust_error_rate_min s, NetworkSimulator.adjust_error_rate_max s⟩

/-- Bounds invariant for an arbitrary sequence of record and adjust
operations. -/
lemma runOps_bounds (ops : List SimOp) :
    ∀ s : NetworkSimulator, 0 ≤ s.min_error_rate → s.min_error_rate ≤ s.error_rate →
      s.error_rate ≤ s.max_error_rate →
      (runOps s ops).min_error_rate = s.min_error_rate ∧
        (runOps s ops).max_error_rate = s.max_error_rate ∧
        (runOps s ops).min_error_rate ≤ (runOps s ops).error_rate ∧
        (runOps s ops).error_rate ≤ (runOps s ops).max_error_rate := by
  induction ops with
  | nil => exact fun s h0 h1 h2 => ⟨rfl, rfl, h1, h2⟩
  | cons op rest ih =>
    intro s h0 h1 h2
    have hstep : (applyOp s op).min_error_rate = s.min_error_rate ∧
        (applyOp s op).max_error_rate = s.max_error_rate ∧
        (applyOp s op).min_error_rate ≤ (applyOp s op).error_rate ∧
        (applyOp s op).error_rate ≤ (applyOp s op).max_error_rate := by
      rcases applyOp_config s op with ⟨hcmin, hcmax⟩
      cases op with
      | record lat lost => exact ⟨rfl, rfl, h1, h2⟩
      | adjust =>
        rcases NetworkSimulator.adjust_error_rate_bounds s h0 h1 h2 with ⟨hb1, hb2⟩
        exact ⟨hcmin, hcmax, by rwa [hcmin], by rwa [hcmax]⟩
    have hrun : runOps s (op :: rest) = runOps (applyOp s op) rest := by
      simp [runOps]
    rw [hrun]
    rcases hstep with ⟨hm1, hm2, hb1, hb2⟩
    rcases ih (applyOp s op) (by rwa [hm1]) hb1 hb2 with ⟨r1, r2, r3, r4⟩
    exact ⟨by rw [r1, hm1], by rw [r2, hm2], r3, r4⟩

/-- C2 counterexample: the constructor stores the supplied rate without
clamping, so a simulator constructed with rate 0.9 violates the invariant
min_error_rate <= current_error_rate <= max_error_rate immediately after
construction, refuting the claim for arbitrary constructor-supplied
rates. -/
theorem C2_counterexample :
    ¬ ((NetworkSimulator.init 0.9).min_error_rate ≤ (NetworkSimulator.init 0.9).error_rate ∧
       (NetworkSimulator.init 0.9).error_rate ≤ (NetworkSimulator.init 0.9).max_error_rate) := by
  intro h
  have h2 := h.2
  norm_num [NetworkSimulator.init] at h2

/-- C2 (amended): provided the constructor-supplied initial rate lies
within [0.05, 0.5], the invariant
min_error_rate <= current_error_rate <= max_error_rate (with the
constructed bounds 0.05 and 0.5) holds immediately after construction and
at every step of every sequence of recorded outcomes and
adjust_error_rate calls. -/
theorem C2_rate_bounds_invariant (r : ℚ) (hlo : (0.05 : ℚ) ≤ r) (hhi : r ≤ (0.5 : ℚ))
    (ops : List SimOp) :
    (runOps (NetworkSimulator.init r) ops).min_error_rate = (0.05 : ℚ) ∧
      (runOps (NetworkSimulator.init r) ops).max_error_rate = (0.5 : ℚ) ∧
      (runOps (NetworkSimulator.init r) ops).min_error_rate ≤
        (runOps (NetworkSimulator.init r) ops).error_rate ∧
      (runOps (NetworkSimulator.init r) ops).error_rate ≤
        (runOps (NetworkSimulator.init r) ops).max_error_rate := by
  have h := runOps_bounds ops (NetworkSimulator.init r) (by norm_num [NetworkSimulator.init])
    (by simpa [NetworkSimulator.init] using hlo) (by simpa [NetworkSimulator.init] using hhi)
  simpa [NetworkSimulator.init] using h

/-- C2 witness: the invariant after a concrete operation sequence from the
default-like rate 0.1. -/
theorem C2_rate_bounds_invariant_witness :
    (runOps (NetworkSimulator.init 0.1) [SimOp.record 0 true, SimOp.adjust]).min_error_rate
        = (0.05 : ℚ) ∧
      (runOps (NetworkSimulator.init 0.1) [SimOp.record 0 true, SimOp.adjust]).max_error_rate
        = (0.5 : ℚ) ∧
      (runOps (NetworkSimulator.init 0.1) [SimOp.record 0 true, SimOp.adjust]).min_error_rate ≤
        (runOps (NetworkSimulator.init 0.1) [SimOp.record 0 true, SimOp.adjust]).error_rate ∧
      (runOps (NetworkSimulator.init 0.1) [SimOp.record 0 true, SimOp.adjust]).error_rate ≤
        (runOps (NetworkSimulator.init 0.1) [SimOp.record 0 true, SimOp.adjust]).max_error_rate :=
  C2_rate_bounds_invariant 0.1 (by norm_num) (by norm_num) [SimOp.record 0 true, SimOp.adjust]

/-!
## C7: behavior of corrupt_data
-/

/-- Xor with a nonzero value changes a natural number. -/
lemma xor_ne_of_pos (b x : ℕ) (hx : 1 ≤ x) : b ^^^ x ≠ b := by
  intro h
  have h2 : b ^^^ (b ^^^ x) = b ^^^ b := by rw [h]
  rw [← Nat.xor_assoc, Nat.xor_self, Nat.zero_xor] at h2
  omega

/-- C7: corrupt_data returns empty input unchanged; when the draw fires
(draw < error_rate, which holds for every draw in [0, 1) at rate 1.0) it
returns a list of the same length that differs from the input exactly at
the drawn position; when the draw does not fire it returns the input
unchanged.  The embedding is pure, reflecting that the input bytes are
never mutated. -/
theorem C7_corrupt_data_behavior :
    (∀ (s : NetworkSimulator) (draw : ℚ) (pos xorv : ℕ),
        s.corrupt_data [] draw pos xorv = []) ∧
    (∀ (s : NetworkSimulator) (data : List ℕ) (draw : ℚ) (pos xorv : ℕ),
        data ≠ [] → draw < s.error_rate → pos < data.length → 1 ≤ xorv →
        (s.corrupt_data data draw pos xorv).length = data.length ∧
          (s.corrupt_data data draw pos xorv)[pos]? ≠ data[pos]? ∧
          ∀ i, i ≠ pos → (s.corrupt_data data draw pos xorv)[i]? = data[i]?) ∧
    (∀ (s : NetworkSimulator) (data : List ℕ) (draw : ℚ) (pos xorv : ℕ),
        ¬ draw < s.error_rate → s.corrupt_data data draw pos xorv = data) := by
  refine ⟨?_, ?_, ?_⟩
  · intro s draw pos xorv
    simp [NetworkSimulator.corrupt_data]
  · intro s data draw pos xorv hne hdraw hpos hxor
    have hcd : s.corrupt_data data draw pos xorv
        = data.set pos ((data.getD pos 0) ^^^ xorv) := by
      simp [NetworkSimulator.corrupt_data, hne, hdraw]
    refine ⟨by rw [hcd]; exact List.length_set data pos _, ?_, ?_⟩
    · rw [hcd, List.getElem?_set_eq_of_lt _ hpos, List.getElem?_eq_getElem hpos]
      intro h
      rw [Option.some_inj] at h
      have hgd : data.getD pos 0 = data[pos] := by
        rw [List.getD_eq_getElem?_getD, List.getElem?_eq_getElem hpos, Option.getD_some]
      rw [hgd] at h
      exact xor_ne_of_pos data[pos] xorv hxor h
    · intro i hi
      rw [hcd, List.getElem?_set_ne (Ne.symm hi)]
  · intro s data draw pos xorv hdraw
    simp only [NetworkSimulator.corrupt_data, if_neg hdraw]
    split_ifs <;> rfl

/-- C7 witness: a concrete corruption at rate 1 with draw 0 flips the only
byte. -/
theorem C7_corrupt_data_behavior_witness :
    ((NetworkSimulator.init 1).corrupt_data [5] 0 0 1).length = ([5] : List ℕ).length ∧
      ((NetworkSimulator.init 1).corrupt_data [5] 0 0 1)[0]? ≠ ([5] : List ℕ)[0]? ∧
      ∀ i, i ≠ 0 → ((NetworkSimulator.init 1).corrupt_data [5] 0 0 1)[i]? = ([5] : List ℕ)[i]? :=
  C7_corrupt_data_behavior.2.1 (NetworkSimulator.init 1) [5] 0 0 1 (by simp)
    (by norm_num [NetworkSimulator.init]) (by simp) (by omega)

/-!
## C10: all recorded latencies are zero
-/

/-- The encoding of any payload starts with the open-brace byte, so it is
never empty (the ValueError branch of transmit is dead code). -/
lemma Packet.encode_ne_nil (p : List ℕ) : Packet.encode p ≠ [] := by
  simp [Packet.encode, utf8Encode, dumpsEnvelope, encodeStringLit, utf8EncodeChar, dataKey]

/-- One attempt either leaves the latency history unchanged (the exception
path) or appends the single value now - now = 0: both readings of env.now
happen with no suspension between them. -/
lemma NetworkSimulator.transmit_latency (s : NetworkSimulator) (packet : List ℕ)
    (encodeOk : Bool) (now draw : ℚ) (pos xorv : ℕ) (saveOk : Bool) :
    (s.transmit packet encodeOk now draw pos xorv saveOk).latency_data = s.latency_data ∨
      (s.transmit packet encodeOk now draw pos xorv saveOk).latency_data
        = s.latency_data ++ [0] := by
  simp only [NetworkSimulator.transmit]
  split_ifs with he hemp hsave
  · left; rfl
  · right
    rw [NetworkSimulator.adjust_error_rate_latency]
    simp [NetworkSimulator.recordOutcome]
  · right
    simp only [NetworkSimulator.exceptRecord]
    rw [NetworkSimulator.adjust_error_rate_latency]
    simp [NetworkSimulator.recordOutcome]
  · left; rfl

/-- Running any sequence of attempts from a state whose latency history is
all zero keeps it all zero. -/
lemma runTransmits_latency_zero (inputs : List TransmitInput) :
    ∀ s : NetworkSimulator, (∀ x ∈ s.latency_data, x = 0) →
      ∀ x ∈ (runTransmits s inputs).latency_data, x = 0 := by
  induction inputs with
  | nil => intro s h; simpa [runTransmits] using h
  | cons i rest ih =>
    intro s h
    have hrun : runTransmits s (i :: rest)
        = runTransmits (s.transmit i.packet i.encodeOk i.now i.draw i.pos i.xorv i.saveOk) rest := by
      simp [runTransmits]
    rw [hrun]
    apply ih
    intro x hx
    rcases s.transmit_latency i.packet i.encodeOk i.now i.draw i.pos i.xorv i.saveOk
      with heq | heq <;> rw [heq] at hx
    · exact h x hx
    · rcases List.mem_append.mp hx with h1 | h1
      · exact h x h1
      · simpa using h1

/-- C10: on every run of attempts, every value in the latency history is
exactly 0 - the start time is read after the only suspension point and no
further suspension occurs before the latency is computed, so simulated
time cannot advance - and consequently every statistics snapshot that has
data reports average_latency 0. -/
theorem C10_latency_always_zero (r : ℚ) (inputs : List TransmitInput) :
    (∀ x ∈ (runTransmits (NetworkSimulator.init r) inputs).latency_data, x = 0) ∧
      (∀ st : NetworkSimulator.Statistics,
        (runTransmits (NetworkSimulator.init r) inputs).get_statistics = some st →
          st.average_latency = 0) := by
  have hz := runTransmits_latency_zero inputs (NetworkSimulator.init r)
    (by simp [NetworkSimulator.init])
  refine ⟨hz, ?_⟩
  intro st hst
  unfold NetworkSimulator.get_statistics at hst
  split_ifs at hst with hemp
  have hsum : (runTransmits (NetworkSimulator.init r) inputs).latency_data.sum = 0 :=
    List.sum_eq_zero hz
  rw [Option.some_inj] at hst
  rw [← hst]
  simp [hsum]

/-- C10 witness: after one concrete successful attempt the snapshot
reports average latency 0. -/
theorem C10_latency_always_zero_witness :
    ({ total_transmissions := 1, successful_transmissions := 1, average_latency := 0,
       loss_rate := 0, current_error_rate := 0.1 } : NetworkSimulator.Statistics).average_latency
      = 0 :=
  (C10_latency_always_zero 0.1 [⟨[97], true, 5, 1, 0, 1, true⟩]).2
    { total_transmissions := 1, successful_transmissions := 1, average_latency := 0,
      loss_rate := 0, current_error_rate := 0.1 }
    (by with_unfolding_all decide)

/-!
## C4: history lengths versus the attempt counter
-/

/-- Every path of one attempt appends exactly as many loss entries as it
adds to the attempt counter. -/
lemma NetworkSimulator.transmit_loss_total (s : NetworkSimulator) (packet : List ℕ)
    (encodeOk : Bool) (now draw : ℚ) (pos xorv : ℕ) (saveOk : Bool)
    (h : s.packet_loss.length = s.total_transmissions) :
    (s.transmit packet encodeOk now draw pos xorv saveOk).packet_loss.length
      = (s.transmit packet encodeOk now draw pos xorv saveOk).total_transmissions := by
  simp only [NetworkSimulator.transmit]
  split_ifs with he hemp hsave
  · simp [NetworkSimulator.exceptRecord, h]
  · rw [NetworkSimulator.adjust_error_rate_loss, NetworkSimulator.adjust_error_rate_total]
    simp [NetworkSimulator.recordOutcome, h]
  · simp only [NetworkSimulator.exceptRecord]
    rw [NetworkSimulator.adjust_error_rate_loss, NetworkSimulator.adjust_error_rate_total]
    simp [NetworkSimulator.recordOutcome, h]
  · simp [NetworkSimulator.exceptRecord, h]

/-- When encoding and persistence both succeed, one attempt appends
exactly one latency entry and counts exactly one attempt. -/
lemma NetworkSimulator.transmit_latency_total (s : NetworkSimulator) (packet : List ℕ)
    (now draw : ℚ) (pos xorv : ℕ)
    (h : s.latency_data.length = s.total_transmissions) :
    (s.transmit packet true now draw pos xorv true).latency_data.length
      = (s.transmit packet true now draw pos xorv true).total_transmissions := by
  simp only [NetworkSimulator.transmit, if_pos]
  rw [if_neg (Packet.encode_ne_nil packet)]
  rw [NetworkSimulator.adjust_error_rate_latency, NetworkSimulator.adjust_error_rate_total]
  simp [NetworkSimulator.recordOutcome, h]

/-- C4 counterexample: an attempt that raises (here: encoding fails)
appends a loss entry but no latency entry, so after it the latency and
loss histories have different lengths, refuting the claimed three-way
equality for attempts whose encoding fails or raises. -/
theorem C4_counterexample :
    ¬ ((runTransmits (NetworkSimulator.init 0.1)
          [⟨[97], false, 0, 0, 0, 1, true⟩]).latency_data.length
        = (runTransmits (NetworkSimulator.init 0.1)
          [⟨[97], false, 0, 0, 0, 1, true⟩]).packet_loss.length) := by
  with_unfolding_all decide

/-- C4 (amended): after every sequence of attempts the loss history length
equals total_transmissions; the latency history length also equals them
provided no attempt raised (encoding and persistence succeeded
throughout).  An attempt that raises contributes a loss entry and a
counter increment but no latency entry (a persistence failure contributes
a second loss entry and increment after the recorded one), so the
three-way equality fails exactly on runs with a raising attempt. -/
theorem C4_history_lengths (r : ℚ) (inputs : List TransmitInput) :
    ((runTransmits (NetworkSimulator.init r) inputs).packet_loss.length
        = (runTransmits (NetworkSimulator.init r) inputs).total_transmissions) ∧
      ((∀ i ∈ inputs, i.encodeOk = true ∧ i.saveOk = true) →
        (runTransmits (NetworkSimulator.init r) inputs).latency_data.length
          = (runTransmits (NetworkSimulator.init r) inputs).total_transmissions) := by
  have mainLoss : ∀ (l : List TransmitInput) (s : NetworkSimulator),
      s.packet_loss.length = s.total_transmissions →
      (runTransmits s l).packet_loss.length = (runTransmits s l).total_transmissions := by
    intro l
    induction l with
    | nil => exact fun s h1 => h1
    | cons i rest ih =>
      intro s h1
      have hrun : runTransmits s (i :: rest)
          = runTransmits (s.transmit i.packet i.encodeOk i.now i.draw i.pos i.xorv i.saveOk)
              rest := by
        simp [runTransmits]
      rw [hrun]
      exact ih _ (s.transmit_loss_total i.packet i.encodeOk i.now i.draw i.pos i.xorv
        i.saveOk h1)
  have mainLat : ∀ (l : List TransmitInput) (s : NetworkSimulator),
      (∀ i ∈ l, i.encodeOk = true ∧ i.saveOk = true) →
      s.latency_data.length = s.total_transmissions →
      (runTransmits s l).latency_data.length = (runTransmits s l).total_transmissions := by
    intro l
    induction l with
    | nil => exact fun s _ h2 => h2
    | cons i rest ih =>
      intro s hall h2
      have hrun : runTransmits s (i :: rest)
          = runTransmits (s.transmit i.packet i.encodeOk i.now i.draw i.pos i.xorv i.saveOk)
              rest := by
        simp [runTransmits]
      rw [hrun]
      obtain ⟨he, hs⟩ := hall i (List.mem_cons_self i rest)
      rw [he, hs]
      exact ih _ (fun j hj => hall j (List.mem_cons_of_mem i hj))
        (s.transmit_latency_total i.packet i.now i.draw i.pos i.xorv h2)
  exact ⟨mainLoss inputs (NetworkSimulator.init r) rfl,
    fun hall => mainLat inputs (NetworkSimulator.init r) hall rfl⟩

/-- C4 witness: a concrete all-successful run satisfies both equalities. -/
theorem C4_history_lengths_witness :
    (runTransmits (NetworkSimulator.init 0.1)
        [⟨[97], true, 5, 1, 0, 1, true⟩]).latency_data.length
      = (runTransmits (NetworkSimulator.init 0.1)
        [⟨[97], true, 5, 1, 0, 1, true⟩]).total_transmissions :=
  (C4_history_lengths 0.1 [⟨[97], true, 5, 1, 0, 1, true⟩]).2
    (by intro i hi; rw [List.mem_singleton] at hi; subst hi; exact ⟨rfl, rfl⟩)

/-!
## C5: a persistence failure corrupts the recorded state
-/

/-- C5 (code bug): save_statistics is called inside the try block of
transmit, so when persistence raises after the outcome was recorded and
the controller invoked, the except branch records the same attempt a
second time: compared with the run in which persistence succeeds, the
state has an extra loss entry appended and total_transmissions
incremented once more, contradicting the specified non-fatality of
persistence failures (the failure still does not propagate, but the core
state is corrupted). -/
theorem C5_persistence_failure_double_counts :
    ((NetworkSimulator.init 0.1).transmit [97] true 0 1 0 1 true).packet_loss = [false] ∧
      ((NetworkSimulator.init 0.1).transmit [97] true 0 1 0 1 true).total_transmissions = 1 ∧
      ((NetworkSimulator.init 0.1).transmit [97] true 0 1 0 1 false).packet_loss
        = [false, true] ∧
      ((NetworkSimulator.init 0.1).transmit [97] true 0 1 0 1 false).total_transmissions = 2 ∧
      ((NetworkSimulator.init 0.1).transmit [97] true 0 1 0 1 false).latency_data = [0] ∧
      ((NetworkSimulator.init 0.1).transmit [97] true 0 1 0 1 false).successful_transmissions
        = 1 := by
  refine ⟨?_, ?_, ?_, ?_, ?_, ?_⟩ <;> with_unfolding_all decide

/-!
## C9: the recorded lost flag tests the sentinel, not payload equality
-/

/-- C9 counterexample: at rate 1 the single corrupted byte turns payload
"a" into "b"; the decode step then fails to recover the original payload
(it yields a different one), yet the attempt is recorded with lost =
false, refuting lost = (decoded result differs from the original
payload). -/
theorem C9_counterexample :
    ((NetworkSimulator.init 1).transmit [97] true 0 0 10 3 true).packet_loss = [false] ∧
      Packet.decode ((NetworkSimulator.init 1).corrupt_data (Packet.encode [97]) 0 10 3)
        ≠ Json.str [97] := by
  constructor
  · with_unfolding_all decide
  · have h : Packet.decode ((NetworkSimulator.init 1).corrupt_data (Packet.encode [97]) 0 10 3)
        = Json.str [98] := by
      with_unfolding_all rfl
    rw [h]
    intro hcontra
    have : ([98] : List ℕ) = [97] := by injection hcontra
    simp at this

/-- C9 (amended): for every attempt that reaches the decode step (encoding
succeeded; persistence succeeds so the recording is not duplicated), the
appended lost flag is true exactly when the decode result is the failure
sentinel None - not when the decoded payload differs from the original:
a corrupted transmission that decodes to a different valid payload is
recorded as successful. -/
theorem C9_lost_iff_sentinel (s : NetworkSimulator) (packet : List ℕ) (now draw : ℚ)
    (pos xorv : ℕ) :
    (s.transmit packet true now draw pos xorv true).packet_loss
      = s.packet_loss
        ++ [(Packet.decode (s.corrupt_data (Packet.encode packet) draw pos xorv)).isNull] := by
  simp only [NetworkSimulator.transmit, if_pos]
  rw [if_neg (Packet.encode_ne_nil packet)]
  rw [NetworkSimulator.adjust_error_rate_loss]
  simp [NetworkSimulator.recordOutcome]

/-!
## C8: decode is total and returns the sentinel on all failures
-/

/-- C8: Packet.decode is a total function (the embedding of the catch-all
except of decode: no input raises) and returns the failure sentinel None
on empty input, on every input whose UTF-8 decoding or json parse fails,
and on a parsed envelope that is an object without the "data" field. -/
theorem C8_decode_sentinel :
    Packet.decode [] = Json.null ∧
    (∀ bs : List ℕ, (utf8Decode bs).bind Json.loads = none → Packet.decode bs = Json.null) ∧
    (∀ (bs : List ℕ) (fields : List (List ℕ × Json)),
        (utf8Decode bs).bind Json.loads = some (Json.obj fields) →
        lookupField fields dataKey = none → Packet.decode bs = Json.null) := by
  refine ⟨by rfl, ?_, ?_⟩
  · intro bs h
    unfold Packet.decode
    rw [h]
  · intro bs fields h1 h2
    unfold Packet.decode
    rw [h1]
    dsimp only
    rw [h2]

/-- C8 witness: the sentinel on a concrete non-json input and on a
concrete envelope missing the "data" field. -/
theorem C8_decode_sentinel_witness :
    Packet.decode [120, 121, 122] = Json.null ∧
      Packet.decode [123, 34, 120, 34, 58, 32, 34, 121, 34, 125] = Json.null :=
  ⟨C8_decode_sentinel.2.1 [120, 121, 122] (by with_unfolding_all rfl),
   C8_decode_sentinel.2.2 [123, 34, 120, 34, 58, 32, 34, 121, 34, 125]
     [([120], Json.str [121])] (by with_unfolding_all rfl) (by with_unfolding_all rfl)⟩

/-!
## C6: codec round trip, part 1 - the string literal scanner inverts the
escaper
-/

/-- hexVal inverts hexDigitChar on digit values. -/
lemma hexVal_hexDigitChar (n : ℕ) (h : n < 16) : hexVal (hexDigitChar n) = some n := by
  unfold hexVal hexDigitChar
  split_ifs <;> first | (congr 1; omega) | omega

/-- hexVal4 recovers the code unit from its four emitted hex digits. -/
lemma hexVal4_uEscape (u : ℕ) (h : u < 65536) :
    hexVal4 (hexDigitChar (u / 4096 % 16)) (hexDigitChar (u / 256 % 16))
      (hexDigitChar (u / 16 % 16)) (hexDigitChar (u % 16)) = some u := by
  unfold hexVal4
  rw [hexVal_hexDigitChar _ (Nat.mod_lt _ (by omega)),
    hexVal_hexDigitChar _ (Nat.mod_lt _ (by omega)),
    hexVal_hexDigitChar _ (Nat.mod_lt _ (by omega)),
    hexVal_hexDigitChar _ (Nat.mod_lt _ (by omega))]
  dsimp only
  congr 1
  omega

/-- scanEscape on the digits of a unicode escape of a non-high-surrogate
code unit yields that code unit. -/
lemma scanEscape_uEscape (u : ℕ) (hu : u < 65536) (hns : ¬ (55296 ≤ u ∧ u < 56320))
    (tail : List ℕ) :
    scanEscape (117 :: hexDigitChar (u / 4096 % 16) :: hexDigitChar (u / 256 % 16)
        :: hexDigitChar (u / 16 % 16) :: hexDigitChar (u % 16) :: tail)
      = some ([u], tail) := by
  simp only [scanEscape]
  norm_num
  rw [hexVal4_uEscape u hu]
  dsimp only
  rw [if_neg hns]

/-- scanEscape on a high-surrogate escape followed by a low-surrogate
escape combines the pair. -/
lemma scanEscape_pair (u1 u2 : ℕ) (h1 : 55296 ≤ u1) (h2 : u1 < 56320)
    (h3 : 56320 ≤ u2) (h4 : u2 < 57344) (tail : List ℕ) :
    scanEscape (117 :: hexDigitChar (u1 / 4096 % 16) :: hexDigitChar (u1 / 256 % 16)
        :: hexDigitChar (u1 / 16 % 16) :: hexDigitChar (u1 % 16)
        :: 92 :: 117 :: hexDigitChar (u2 / 4096 % 16) :: hexDigitChar (u2 / 256 % 16)
        :: hexDigitChar (u2 / 16 % 16) :: hexDigitChar (u2 % 16) :: tail)
      = some ([65536 + (u1 - 55296) * 1024 + (u2 - 56320)], tail) := by
  simp only [scanEscape]
  norm_num
  rw [hexVal4_uEscape u1 (by omega)]
  dsimp only
  rw [if_pos ⟨h1, h2⟩]
  norm_num
  rw [hexVal4_uEscape u2 (by omega)]
  dsimp only
  rw [if_pos ⟨h3, h4⟩]

/-- One scanner step on a backslash hands over to scanEscape. -/
lemma scanString_backslash (f : ℕ) (rest : List ℕ) :
    scanString (f + 1) (92 :: rest)
      = match scanEscape rest with
        | some (chars, rest2) => (scanString f rest2).map (fun p => (chars ++ p.1, p.2))
        | none => none := by
  simp only [scanString]
  norm_num

/-- Scanning one unicode escape of a non-high-surrogate code unit yields
that code unit and continues. -/
lemma scanString_uEscape (u : ℕ) (hu : u < 65536) (hns : ¬ (55296 ≤ u ∧ u < 56320))
    (f : ℕ) (tail : List ℕ) :
    scanString (f + 1) (uEscape u ++ tail) = (scanString f tail).map
      (fun p => (u :: p.1, p.2)) := by
  simp only [uEscape, List.cons_append, List.nil_append]
  rw [scanString_backslash]
  rw [scanEscape_uEscape u hu hns]
  dsimp only
  simp

set_option maxHeartbeats 2000000 in
/-- Scanning one escaped character yields that character and continues:
the scanner inverts the escaper character by character. -/
lemma scanString_escapeChar (c : ℕ) (hgood : GoodChar c) (f : ℕ) (tail : List ℕ) :
    scanString (f + 1) (escapeChar c ++ tail) = (scanString f tail).map
      (fun p => (c :: p.1, p.2)) := by
  obtain ⟨hlt, hns⟩ := hgood
  unfold escapeChar
  split_ifs with h34 h92 h8 h9 h10 h12 h13 hc32 hc127 hbmp
  · subst h34; rw [show ((92:ℕ) :: _) ++ tail = 92 :: _ from rfl]; rw [scanString_backslash]; simp [scanEscape]
  · subst h92; rw [show ((92:ℕ) :: _) ++ tail = 92 :: _ from rfl]; rw [scanString_backslash]; simp [scanEscape]
  · subst h8; rw [show ((92:ℕ) :: _) ++ tail = 92 :: _ from rfl]; rw [scanString_backslash]; simp [scanEscape]
  · subst h9; rw [show ((92:ℕ) :: _) ++ tail = 92 :: _ from rfl]; rw [scanString_backslash]; simp [scanEscape]
  · subst h10; rw [show ((92:ℕ) :: _) ++ tail = 92 :: _ from rfl]; rw [scanString_backslash]; simp [scanEscape]
  · subst h12; rw [show ((92:ℕ) :: _) ++ tail = 92 :: _ from rfl]; rw [scanString_backslash]; simp [scanEscape]
  · subst h13; rw [show ((92:ℕ) :: _) ++ tail = 92 :: _ from rfl]; rw [scanString_backslash]; simp [scanEscape]
  · exact scanString_uEscape c (by omega) (by omega) f tail
  · simp only [List.cons_append, List.nil_append]
    simp only [scanString]
    rw [if_neg h34, if_neg h92, if_neg (by omega : ¬ c < 32)]
  · exact scanString_uEscape c (by omega) (by omega) f tail
  · -- astral code point: a surrogate pair of unicode escapes
    rw [List.append_assoc]
    simp only [uEscape, List.cons_append, List.nil_append]
    rw [scanString_backslash]
    rw [scanEscape_pair (55296 + (c - 65536) / 1024) (56320 + (c - 65536) % 1024)
      (by omega) (by omega) (by omega) (by omega) tail]
    dsimp only
    have harith : 65536 + (55296 + (c - 65536) / 1024 - 55296) * 1024 +
        (56320 + (c - 65536) % 1024 - 56320) = c := by omega
    rw [harith]
    simp

/-- Scanning the full escaped body of a string literal up to the closing
quote recovers the original characters and the input after the quote. -/
lemma scanString_escaped_list (p : List ℕ) (hp : ∀ c ∈ p, GoodChar c) :
    ∀ (f : ℕ) (rest : List ℕ), p.length < f →
      scanString f ((p.map escapeChar).flatten ++ 34 :: rest) = some (p, rest) := by
  induction p with
  | nil =>
    intro f rest hf
    obtain ⟨f', rfl⟩ : ∃ f', f = f' + 1 := ⟨f - 1, by omega⟩
    simp [scanString]
  | cons c p' ih =>
    intro f rest hf
    obtain ⟨f', rfl⟩ : ∃ f', f = f' + 1 := ⟨f - 1, by omega⟩
    have hshape : ((c :: p').map escapeChar).flatten ++ 34 :: rest
        = escapeChar c ++ ((p'.map escapeChar).flatten ++ 34 :: rest) := by
      simp [List.flatten_cons, List.append_assoc]
    rw [hshape, scanString_escapeChar c (hp c (List.mem_cons_self c p')) f']
    rw [ih (fun x hx => hp x (List.mem_cons_of_mem c hx)) f' rest (by simp at hf; omega)]
    rfl

/-!
## C6: codec round trip, part 2 - parsing the dumped envelope
-/

set_option maxHeartbeats 2000000 in
/-- Every escape sequence is at least one character long. -/
lemma escapeChar_length_pos (c : ℕ) : 0 < (escapeChar c).length := by
  unfold escapeChar
  split_ifs <;> simp [uEscape]

/-- The escaped body is at least as long as the original string. -/
lemma escape_flatten_length (p : List ℕ) :
    p.length ≤ ((p.map escapeChar).flatten).length := by
  induction p with
  | nil => simp
  | cons c p' ih =>
    simp only [List.map_cons, List.flatten_cons, List.length_append, List.length_cons]
    have := escapeChar_length_pos c
    omega

/-- The dumped envelope in head-normal form: brace, key literal, colon,
space, then the payload literal and the closing brace. -/
lemma dumpsEnvelope_eq (p : List ℕ) :
    dumpsEnvelope p
      = 123 :: 34 :: 100 :: 97 :: 116 :: 97 :: 34 :: 58 :: 32 :: 34
          :: ((p.map escapeChar).flatten ++ 34 :: [125]) := by
  have h100 : escapeChar 100 = [100] := rfl
  have h97 : escapeChar 97 = [97] := rfl
  have h116 : escapeChar 116 = [116] := rfl
  simp [dumpsEnvelope, encodeStringLit, dataKey, h100, h97, h116]

/-- Scanning the key literal body of the envelope. -/
lemma scanString_dataKey (f : ℕ) (rest : List ℕ) (hf : 4 < f) :
    scanString f (100 :: 97 :: 116 :: 97 :: 34 :: rest) = some (dataKey, rest) := by
  have hlen : (dataKey : List ℕ).length < f := by
    rw [show (dataKey : List ℕ).length = 4 from rfl]
    exact hf
  have h := scanString_escaped_list dataKey (by decide) f rest hlen
  have hflat : ((dataKey.map escapeChar).flatten : List ℕ) = [100, 97, 116, 97] := by rfl
  rw [hflat] at h
  simpa using h

/-- Parsing the dumped envelope with any sufficient fuel yields the
one-field object carrying the payload string, with no input left. -/
lemma parseValue_envelope (p : List ℕ) (hp : ∀ c ∈ p, GoodChar c) (n : ℕ) :
    parseValue (n + 3) (dumpsEnvelope p) = some (Json.obj [(dataKey, Json.str p)], []) := by
  rw [dumpsEnvelope_eq]
  show parseValue ((n + 2) + 1) _ = _
  simp only [parseValue]
  norm_num [skipWs, isJsonWs]
  rw [show (n + 2) = (n + 1) + 1 from rfl]
  simp only [parseMembers]
  rw [scanString_dataKey _ _ (by simp)]
  dsimp only
  norm_num [skipWs, isJsonWs]
  simp only [parseValue]
  norm_num
  rw [show (List.map (List.length ∘ escapeChar) p).sum + 2 + 1
      = ((p.map escapeChar).flatten ++ 34 :: [125]).length + 1 by simp]
  have hfuel : p.length < ((p.map escapeChar).flatten ++ 34 :: [125]).length + 1 := by
    have h := escape_flatten_length p
    simp only [List.length_append, List.length_cons, List.length_nil]
    omega
  rw [scanString_escaped_list p hp _ [125] hfuel]
  norm_num [skipWs, isJsonWs]

/-- json.loads of the dumped envelope parses the one-field object. -/
lemma Json.loads_dumpsEnvelope (p : List ℕ) (hp : ∀ c ∈ p, GoodChar c) :
    Json.loads (dumpsEnvelope p) = some (Json.obj [(dataKey, Json.str p)]) := by
  unfold Json.loads
  have hskip : skipWs (dumpsEnvelope p) = dumpsEnvelope p := by
    rw [dumpsEnvelope_eq]; simp [skipWs, isJsonWs]
  rw [hskip]
  have hlen : (dumpsEnvelope p).length + 1 = ((dumpsEnvelope p).length - 2) + 3 := by
    rw [dumpsEnvelope_eq]
    simp only [List.length_cons]
    omega
  rw [hlen, parseValue_envelope p hp]
  simp [skipWs]

/-- Hex digit characters are ASCII. -/
lemma hexDigitChar_lt (n : ℕ) (h : n < 16) : hexDigitChar n < 128 := by
  unfold hexDigitChar
  split_ifs <;> omega

/-- Unicode escape sequences are ASCII. -/
lemma uEscape_lt_128 (u : ℕ) : ∀ b ∈ uEscape u, b < 128 := by
  intro b hb
  simp only [uEscape, List.mem_cons, List.not_mem_nil, or_false] at hb
  rcases hb with h | h | h | h | h | h <;> subst h <;>
    first
      | omega
      | exact hexDigitChar_lt _ (Nat.mod_lt _ (by omega))

set_option maxHeartbeats 2000000 in
/-- The escaper only emits ASCII characters (ensure_ascii). -/
lemma escapeChar_lt_128 (c : ℕ) : ∀ b ∈ escapeChar c, b < 128 := by
  intro b hb
  unfold escapeChar at hb
  split_ifs at hb with h34 h92 h8 h9 h10 h12 h13 hc32 hc127 hbmp
  · simp at hb; rcases hb with h | h <;> omega
  · simp at hb; rcases hb with h | h <;> omega
  · simp at hb; rcases hb with h | h <;> omega
  · simp at hb; rcases hb with h | h <;> omega
  · simp at hb; rcases hb with h | h <;> omega
  · simp at hb; rcases hb with h | h <;> omega
  · simp at hb; rcases hb with h | h <;> omega
  · exact uEscape_lt_128 c b hb
  · simp at hb; omega
  · exact uEscape_lt_128 c b hb
  · rcases List.mem_append.mp hb with h | h
    · exact uEscape_lt_128 _ b h
    · exact uEscape_lt_128 _ b h

/-- The whole dumped envelope is ASCII. -/
lemma dumpsEnvelope_lt_128 (p : List ℕ) : ∀ b ∈ dumpsEnvelope p, b < 128 := by
  intro b hb
  rw [dumpsEnvelope_eq] at hb
  simp only [List.mem_cons, List.mem_append] at hb
  rcases hb with h | h | h | h | h | h | h | h | h | h | h | h
  all_goals first
    | omega
    | skip
  · rcases List.mem_flatten.mp h with ⟨l, hl, hbl⟩
    rcases List.mem_map.mp hl with ⟨c, _, rfl⟩
    exact escapeChar_lt_128 c b hbl
  · simp at h; rcases h with h | h <;> omega

/-- Every encoded code point is at least one byte. -/
lemma utf8EncodeChar_length_pos (c : ℕ) : 0 < (utf8EncodeChar c).length := by
  unfold utf8EncodeChar
  split_ifs <;> simp

/-- A byte string is at least as long as the string it encodes. -/
lemma utf8Encode_length (cs : List ℕ) : cs.length ≤ (utf8Encode cs).length := by
  induction cs with
  | nil => simp [utf8Encode]
  | cons c rest ih =>
    simp only [utf8Encode, List.map_cons, List.flatten_cons, List.length_append,
      List.length_cons] at *
    have := utf8EncodeChar_length_pos c
    omega

/-- The decoding loop inverts the encoder on ASCII strings, for any
sufficient fuel. -/
lemma utf8DecodeLoop_encode_ascii (cs : List ℕ) :
    ∀ f, (∀ c ∈ cs, c < 128) → cs.length < f →
      utf8DecodeLoop f (utf8Encode cs) = some cs := by
  induction cs with
  | nil =>
    intro f _ hf
    obtain ⟨f', rfl⟩ : ∃ f', f = f' + 1 := ⟨f - 1, by omega⟩
    simp [utf8Encode, utf8DecodeLoop]
  | cons c rest ih =>
    intro f hall hf
    obtain ⟨f', rfl⟩ : ∃ f', f = f' + 1 := ⟨f - 1, by omega⟩
    have hc : c < 128 := hall c (List.mem_cons_self c rest)
    have henc : utf8Encode (c :: rest) = c :: utf8Encode rest := by
      simp [utf8Encode, utf8EncodeChar, hc]
    rw [henc]
    simp only [utf8DecodeLoop]
    rw [show utf8DecodeStep c (utf8Encode rest) = some (c, utf8Encode rest) from by
      unfold utf8DecodeStep; rw [if_pos hc]]
    dsimp only
    rw [ih f' (fun x hx => hall x (List.mem_cons_of_mem c hx)) (by simp at hf; omega)]
    rfl

/-- UTF-8 encoding followed by strict decoding is the identity on ASCII
strings. -/
lemma utf8_ascii (cs : List ℕ) (h : ∀ c ∈ cs, c < 128) :
    utf8Decode (utf8Encode cs) = some cs := by
  unfold utf8Decode
  exact utf8DecodeLoop_encode_ascii cs ((utf8Encode cs).length + 1) h
    (by have := utf8Encode_length cs; omega)

/-- C6: for every payload the codec can represent (every Python string of
Unicode scalar values), decoding the uncorrupted encoding yields the
payload: Packet.decode (Packet.encode p) is exactly the payload string p. -/
theorem C6_codec_roundtrip (p : List ℕ) (hp : ∀ c ∈ p, GoodChar c) :
    Packet.decode (Packet.encode p) = Json.str p := by
  unfold Packet.decode Packet.encode
  rw [utf8_ascii _ (dumpsEnvelope_lt_128 p)]
  rw [Option.some_bind]
  rw [Json.loads_dumpsEnvelope p hp]
  dsimp only
  simp [lookupField]

/-- C6 witness: the round trip on a concrete payload containing an ASCII
letter, an accented BMP character and an astral (surrogate-pair) music
glyph. -/
theorem C6_codec_roundtrip_witness :
    Packet.decode (Packet.encode [72, 233, 119070]) = Json.str [72, 233, 119070] :=
  C6_codec_roundtrip [72, 233, 119070] (by decide)

/-!
## C3: the window-fill scenario with the controller run after every
outcome
-/

/-- Feeding outcomes while the history is still shorter than the window
never changes the rate and simply appends the outcomes. -/
lemma runOutcomes_short (l : List Bool) :
    ∀ s : NetworkSimulator, s.packet_loss.length + l.length < s.adaptive_window →
      (runOutcomes s l).error_rate = s.error_rate ∧
      (runOutcomes s l).packet_loss = s.packet_loss ++ l ∧
      (runOutcomes s l).adaptive_window = s.adaptive_window ∧
      (runOutcomes s l).min_error_rate = s.min_error_rate ∧
      (runOutcomes s l).max_error_rate = s.max_error_rate := by
  induction l with
  | nil => intro s _; simp [runOutcomes]
  | cons b rest ih =>
    intro s h
    have hfeed : feedOutcome s b = s.recordOutcome 0 b := by
      unfold feedOutcome
      apply NetworkSimulator.adjust_error_rate_short
      simp only [NetworkSimulator.recordOutcome, List.length_append, List.length_cons,
        List.length_nil]
      simp only [List.length_cons] at h
      omega
    have hrun : runOutcomes s (b :: rest) = runOutcomes (feedOutcome s b) rest := by
      simp [runOutcomes]
    rw [hrun, hfeed]
    obtain ⟨r1, r2, r3, r4, r5⟩ := ih (s.recordOutcome 0 b)
      (by simp only [NetworkSimulator.recordOutcome, List.length_append, List.length_cons,
            List.length_nil]
          simp only [List.length_cons] at h
          omega)
    refine ⟨r1.trans rfl, ?_, r3.trans rfl, r4.trans rfl, r5.trans rfl⟩
    rw [r2]
    simp [NetworkSimulator.recordOutcome]

/-- After the tenth outcome the window is full: with 4 losses among the
10, the controller decays the rate from 0.5 to 0.4, whatever the
placement of the losses. -/
lemma runOutcomes_first10 (l : List Bool) (hlen : l.length = 10) (hcount : l.count true = 4) :
    (runOutcomes (NetworkSimulator.init 0.5) l).error_rate = 0.4 ∧
      (runOutcomes (NetworkSimulator.init 0.5) l).packet_loss = l ∧
      (runOutcomes (NetworkSimulator.init 0.5) l).adaptive_window = 10 ∧
      (runOutcomes (NetworkSimulator.init 0.5) l).min_error_rate = 0.05 ∧
      (runOutcomes (NetworkSimulator.init 0.5) l).max_error_rate = 0.5 := by
  have hne : l ≠ [] := by intro h; rw [h] at hlen; simp at hlen
  have hrun : runOutcomes (NetworkSimulator.init 0.5) l
      = feedOutcome (runOutcomes (NetworkSimulator.init 0.5) l.dropLast) (l.getLast hne) := by
    conv_lhs => rw [← List.dropLast_append_getLast hne]
    simp [runOutcomes, List.foldl_append]
  obtain ⟨r1, r2, r3, r4, r5⟩ := runOutcomes_short l.dropLast (NetworkSimulator.init 0.5)
    (by simp [NetworkSimulator.init, hlen])
  rw [hrun]
  unfold feedOutcome
  have hloss : ((runOutcomes (NetworkSimulator.init 0.5) l.dropLast).recordOutcome 0
      (l.getLast hne)).packet_loss = l := by
    simp only [NetworkSimulator.recordOutcome, r2]
    simp [NetworkSimulator.init]
    exact List.dropLast_append_getLast hne
  have hwin : ((runOutcomes (NetworkSimulator.init 0.5) l.dropLast).recordOutcome 0
      (l.getLast hne)).adaptive_window = 10 := by
    simp only [NetworkSimulator.recordOutcome]
    rw [r3]; rfl
  have hrate : ((runOutcomes (NetworkSimulator.init 0.5) l.dropLast).recordOutcome 0
      (l.getLast hne)).error_rate = 0.5 := by
    simp only [NetworkSimulator.recordOutcome]
    rw [r1]; rfl
  have hmin : ((runOutcomes (NetworkSimulator.init 0.5) l.dropLast).recordOutcome 0
      (l.getLast hne)).min_error_rate = 0.05 := by
    simp only [NetworkSimulator.recordOutcome]
    rw [r4]; rfl
  have hmax : ((runOutcomes (NetworkSimulator.init 0.5) l.dropLast).recordOutcome 0
      (l.getLast hne)).max_error_rate = 0.5 := by
    simp only [NetworkSimulator.recordOutcome]
    rw [r5]; rfl
  refine ⟨?_, ?_, ?_, ?_, ?_⟩
  · rw [NetworkSimulator.adjust_error_rate_rate]
    rw [hloss, hwin, hrate, hmin, hmax, hlen]
    rw [if_pos (by omega)]
    rw [show (10 : ℕ) - 10 = 0 from rfl, List.drop_zero, hcount]
    rw [if_pos (by norm_num)]
    norm_num
  · rw [NetworkSimulator.adjust_error_rate_loss, hloss]
  · rw [NetworkSimulator.adjust_error_rate_window, hwin]
  · rw [NetworkSimulator.adjust_error_rate_min, hmin]
  · rw [NetworkSimulator.adjust_error_rate_max, hmax]

/-- A window fraction of 1/10 to 3/10 losses lies inside the hysteresis
band: neither threshold fires. -/
lemma band_no_change (c : ℕ) (h1 : 1 ≤ c) (h3 : c ≤ 3) :
    ¬ ((c : ℚ) / 10 > 0.3) ∧ ¬ ((c : ℚ) / 10 < 0.1) := by
  have hcq3 : (c : ℚ) ≤ 3 := by exact_mod_cast h3
  have hcq1 : (1 : ℚ) ≤ (c : ℚ) := by exact_mod_cast h1
  constructor
  · intro h
    rw [gt_iff_lt] at h
    have : (0.3 : ℚ) * 10 < (c : ℚ) := by
      rw [← lt_div_iff (by norm_num : (0 : ℚ) < 10)]
      exact h
    norm_num at this
    linarith
  · intro h
    have : (c : ℚ) < (0.1 : ℚ) * 10 := by
      rw [← div_lt_iff (by norm_num : (0 : ℚ) < 10)]
      exact h
    norm_num at this
    linarith

/-- With the first and the tenth outcome both losses, each intermediate
sliding window of the drain phase keeps between 1 and 3 losses. -/
lemma window_count_bounds (l : List Bool) (hlen : l.length = 10) (hcount : l.count true = 4)
    (hhead : l.head? = some true) (hlast : l.getLast? = some true)
    (j : ℕ) (hj1 : 1 ≤ j) (hj9 : j ≤ 9) :
    1 ≤ (l.drop j).count true ∧ (l.drop j).count true ≤ 3 := by
  constructor
  · have hne : l.drop j ≠ [] := by
      intro h0
      have : (l.drop j).length = 0 := by rw [h0]; rfl
      rw [List.length_drop, hlen] at this
      omega
    have hgl : (l.drop j).getLast? = l.getLast? := by
      conv_rhs => rw [← List.take_append_drop j l]
      rw [List.getLast?_append_of_ne_nil (l.take j) hne]
    rw [hlast] at hgl
    obtain ⟨hne2, hh⟩ := @List.mem_getLast?_eq_getLast Bool (l.drop j) true
      (by simp only [Option.mem_def, hgl])
    have hmem : true ∈ l.drop j := by rw [hh]; exact List.getLast_mem hne2
    exact List.count_pos_iff.mpr hmem
  · have hsplit : l.count true = (l.take j).count true + (l.drop j).count true := by
      conv_lhs => rw [← List.take_append_drop j l]
      rw [List.count_append]
    have htake : 1 ≤ (l.take j).count true := by
      obtain ⟨a, l', rfl⟩ : ∃ a l', l = a :: l' := by
        cases l with
        | nil => simp at hlen
        | cons a l' => exact ⟨a, l', rfl⟩
      have ha : a = true := by simpa using hhead
      subst ha
      obtain ⟨j', rfl⟩ : ∃ j', j = j' + 1 := ⟨j - 1, by omega⟩
      rw [List.take_succ_cons]
      simp
    omega

/-- Feeding the drain-phase outcomes one at a time: through the ninth
loss-free outcome the rate stays 0.4 (every window has 1 to 3 losses). -/
lemma runOutcomes_drain_mid (l : List Bool) (hlen : l.length = 10)
    (hcount : l.count true = 4) (hhead : l.head? = some true)
    (hlast : l.getLast? = some true) (s : NetworkSimulator)
    (hsl : s.packet_loss = l) (hsr : s.error_rate = 0.4) (hw : s.adaptive_window = 10)
    (hmin : s.min_error_rate = 0.05) (hmax : s.max_error_rate = 0.5) :
    ∀ j, j ≤ 9 →
      (runOutcomes s (List.replicate j false)).error_rate = 0.4 ∧
      (runOutcomes s (List.replicate j false)).packet_loss = l ++ List.replicate j false ∧
      (runOutcomes s (List.replicate j false)).adaptive_window = 10 ∧
      (runOutcomes s (List.replicate j false)).min_error_rate = 0.05 ∧
      (runOutcomes s (List.replicate j false)).max_error_rate = 0.5 := by
  intro j
  induction j with
  | zero =>
    intro
    simp [runOutcomes, hsl, hsr, hw, hmin, hmax]
  | succ k ih =>
    intro hk
    obtain ⟨r1, r2, r3, r4, r5⟩ := ih (by omega)
    have hrun : runOutcomes s (List.replicate (k + 1) false)
        = feedOutcome (runOutcomes s (List.replicate k false)) false := by
      rw [List.replicate_succ']
      simp [runOutcomes, List.foldl_append]
    rw [hrun]
    unfold feedOutcome
    set T := runOutcomes s (List.replicate k false) with hT
    have hloss2 : (T.recordOutcome 0 false).packet_loss
        = l ++ List.replicate (k + 1) false := by
      simp only [NetworkSimulator.recordOutcome, r2]
      rw [List.replicate_succ', List.append_assoc]
    have hlen2 : (l ++ List.replicate (k + 1) false).length = 11 + k := by
      simp [hlen]
      omega
    have hwin2 : (T.recordOutcome 0 false).adaptive_window = 10 := by
      simp only [NetworkSimulator.recordOutcome]; exact r3
    have hrate2 : (T.recordOutcome 0 false).error_rate = 0.4 := by
      simp only [NetworkSimulator.recordOutcome]; exact r1
    have hmin2 : (T.recordOutcome 0 false).min_error_rate = 0.05 := by
      simp only [NetworkSimulator.recordOutcome]; exact r4
    have hmax2 : (T.recordOutcome 0 false).max_error_rate = 0.5 := by
      simp only [NetworkSimulator.recordOutcome]; exact r5
    have hdrop : (l ++ List.replicate (k + 1) false).drop ((11 + k) - 10)
        = l.drop (k + 1) ++ List.replicate (k + 1) false := by
      rw [show (11 + k) - 10 = k + 1 by omega]
      rw [List.drop_append_of_le_length (by omega)]
    have hcnt : ((l ++ List.replicate (k + 1) false).drop ((11 + k) - 10)).count true
        = (l.drop (k + 1)).count true := by
      rw [hdrop, List.count_append]
      simp [List.count_replicate]
    obtain ⟨hb1, hb2⟩ := window_count_bounds l hlen hcount hhead hlast (k + 1)
      (by omega) (by omega)
    obtain ⟨hno1, hno2⟩ := band_no_change ((l.drop (k + 1)).count true) hb1 hb2
    refine ⟨?_, ?_, ?_, ?_, ?_⟩
    · rw [NetworkSimulator.adjust_error_rate_rate]
      rw [hloss2, hwin2, hrate2, hlen2]
      rw [if_pos (by omega)]
      rw [show ((l ++ List.replicate (k + 1) false).drop ((11 + k) - 10)).count true
            = (l.drop (k + 1)).count true from hcnt]
      rw [if_neg (by exact_mod_cast hno1), if_neg (by exact_mod_cast hno2)]
    · rw [NetworkSimulator.adjust_error_rate_loss, hloss2]
    · rw [NetworkSimulator.adjust_error_rate_window, hwin2]
    · rw [NetworkSimulator.adjust_error_rate_min, hmin2]
    · rw [NetworkSimulator.adjust_error_rate_max, hmax2]

set_option maxRecDepth 20000 in
/-- C3 counterexample: starting at rate 0.5 and feeding 10 outcomes with
the 4 losses in positions 1 to 4 (controller after every outcome) and
then 10 loss-free outcomes, the final rate is 0.5 and not the claimed
0.48: the sliding window keeps firing the increase threshold during the
drain and the rate saturates at max_error_rate, refuting the claim for
arbitrary loss placements. -/
theorem C3_counterexample :
    (runOutcomes (runOutcomes (NetworkSimulator.init 0.5)
        [true, true, true, true, false, false, false, false, false, false])
      (List.replicate 10 false)).error_rate ≠ 0.48 := by
  with_unfolding_all decide

/-- C3 (amended): with the controller evaluated after every recorded
outcome, after 10 outcomes of which 4 are losses the rate is 0.4 for
every placement of the losses; after 10 further loss-free outcomes the
rate is 0.48 when the first and the tenth of the initial outcomes are
losses (then every intermediate sliding window stays inside the
hysteresis band and only the last window triggers the single increase);
for other placements the sliding window triggers further adjustments and
the final rate can differ. -/
theorem C3_window_fill_scenario (l : List Bool) (hlen : l.length = 10)
    (hcount : l.count true = 4) :
    (runOutcomes (NetworkSimulator.init 0.5) l).error_rate = 0.4 ∧
      (l.head? = some true → l.getLast? = some true →
        (runOutcomes (runOutcomes (NetworkSimulator.init 0.5) l)
            (List.replicate 10 false)).error_rate = 0.48) := by
  obtain ⟨a1, a2, a3, a4, a5⟩ := runOutcomes_first10 l hlen hcount
  refine ⟨a1, fun hhead hlast => ?_⟩
  obtain ⟨m1, m2, m3, m4, m5⟩ := runOutcomes_drain_mid l hlen hcount hhead hlast
    (runOutcomes (NetworkSimulator.init 0.5) l) a2 a1 a3 a4 a5 9 (le_refl 9)
  have hrun : runOutcomes (runOutcomes (NetworkSimulator.init 0.5) l)
        (List.replicate 10 false)
      = feedOutcome (runOutcomes (runOutcomes (NetworkSimulator.init 0.5) l)
          (List.replicate 9 false)) false := by
    rw [show (10 : ℕ) = 9 + 1 from rfl, List.replicate_succ']
    simp [runOutcomes, List.foldl_append]
  rw [hrun]
  unfold feedOutcome
  set T := runOutcomes (runOutcomes (NetworkSimulator.init 0.5) l)
    (List.replicate 9 false) with hT
  have hsucc : List.replicate 9 false ++ [false] = List.replicate 10 false := by decide
  have hloss2 : (T.recordOutcome 0 false).packet_loss
      = l ++ List.replicate 10 false := by
    simp only [NetworkSimulator.recordOutcome, m2]
    rw [List.append_assoc, hsucc]
  have hwin2 : (T.recordOutcome 0 false).adaptive_window = 10 := by
    simp only [NetworkSimulator.recordOutcome]; exact m3
  have hrate2 : (T.recordOutcome 0 false).error_rate = 0.4 := by
    simp only [NetworkSimulator.recordOutcome]; exact m1
  have hmin2 : (T.recordOutcome 0 false).min_error_rate = 0.05 := by
    simp only [NetworkSimulator.recordOutcome]; exact m4
  have hmax2 : (T.recordOutcome 0 false).max_error_rate = 0.5 := by
    simp only [NetworkSimulator.recordOutcome]; exact m5
  rw [NetworkSimulator.adjust_error_rate_rate, hloss2, hwin2, hrate2, hmax2]
  have hlen2 : (l ++ List.replicate 10 false).length = 20 := by simp [hlen]
  rw [hlen2, if_pos (by omega)]
  have hdrop : (l ++ List.replicate 10 false).drop (20 - 10) = List.replicate 10 false := by
    rw [show (20 : ℕ) - 10 = 10 from rfl, ← hlen, List.drop_left]
  rw [hdrop]
  rw [show (List.replicate 10 false).count true = 0 by simp [List.count_replicate]]
  rw [if_neg (by norm_num), if_pos (by norm_num)]
  norm_num

/-- C3 witness: losses in positions 1, 2, 3 and 10 reach 0.4 after the
first window and 0.48 after the loss-free drain. -/
theorem C3_window_fill_scenario_witness :
    (runOutcomes (NetworkSimulator.init 0.5)
        [true, true, true, false, false, false, false, false, false, true]).error_rate = 0.4 ∧
      (runOutcomes (runOutcomes (NetworkSimulator.init 0.5)
          [true, true, true, false, false, false, false, false, false, true])
        (List.replicate 10 false)).error_rate = 0.48 :=
  ⟨(C3_window_fill_scenario
      [true, true, true, false, false, false, false, false, false, true]
      (by decide) (by decide)).1,
   (C3_window_fill_scenario
      [true, true, true, false, false, false, false, false, false, true]
      (by decide) (by decide)).2 (by decide) (by decide)⟩
